import Mathlib

/-!
# Verification of the NHCC dashboard core logic

A shallow embedding, in Lean 4, of the contact-info parsers, the fax-to-email
normalizer and validator, the spreadsheet import row loop, the relationship
scoring engine, the overdue-item deriver, and the lunch-completion transition
of the `nhcc-dashboard` repository (files `src/data_import.py`, `src/utils.py`,
`src/database.py`, `src/pages/action_items.py`), together with theorems
settling the specification claims about them.

Modelling conventions:
* Python strings are `String` / `List Char`; `None`-able cells are `Option String`.
* Dates are modelled as integer day numbers; "today" is an explicit `now : Int`
  parameter, so Python's `days_since d = (now - d).days` becomes `now - d`.
  A date field that is absent or unparseable is `none` (Python: `days_since`
  returns `None`).
* SQL queries over the SQLite store are modelled as list filters over an
  explicit database record, with `ORDER BY` realised by an insertion sort
  (tie order is unspecified in SQL and never matters below) and joins on the
  practices table elided because every query below is keyed by the id of a
  practice row that exists.
* Python regular-expression search (`re.search`) is modelled by a small
  backtracking engine over a regex AST covering exactly the constructs the
  source patterns use; alternatives, optionals and stars produce their
  candidate matches in Python's backtracking priority order, and `re.search`
  takes the first success at the leftmost possible start position.
-/

/-! ## Character helpers -/

/-- Python's `\s` class (ASCII): space, tab, newline, carriage return,
vertical tab, form feed. -/
def pyIsSpace (c : Char) : Bool :=
  c = ' ' || c = '\t' || c = '\n' || c = '\r' || c = '\x0b' || c = '\x0c'

/-- Python's `str.strip()`: remove leading and trailing whitespace. -/
def pyStrip (cs : List Char) : List Char :=
  ((cs.dropWhile pyIsSpace).reverse.dropWhile pyIsSpace).reverse

/-- The digits of a string, in order (`re.sub(r'[^0-9]', '', s)`). -/
def digitsOf (s : String) : List Char :=
  s.data.filter Char.isDigit

/-! ## Fax-email normalizer (`src/data_import.py`, `convert_fax_to_vonage_email`) -/

/-- The fixed gateway domain suffix used by the converter and validator. -/
def vonageDomainChars : List Char := "@fax.vonagebusiness.com".data

/-- Assemble `1(AAA)LLLLLLL@fax.vonagebusiness.com` from a ten-digit list. -/
def mkVonage (ds : List Char) : String :=
  String.mk ('1' :: '(' :: (ds.take 3 ++ ')' :: (ds.drop 3 ++ vonageDomainChars)))

/-- `convert_fax_to_vonage_email` (src/data_import.py lines 48-61): strip
non-digits; reject fewer than 10 digits; drop a leading `1` from an 11-digit
number; otherwise keep the last 10 digits; output the parenthesized gateway
address. -/
def convert_fax_to_vonage_email (fax_number : String) : String :=
  if fax_number = "" || pyStrip fax_number.data = [] then ""
  else
    let cleaned := fax_number.data.filter Char.isDigit
    if cleaned.length < 10 then ""
    else
      let cleaned2 :=
        if cleaned.length = 11 && cleaned.head? = some '1' then cleaned.drop 1
        else if cleaned.length > 10 then cleaned.drop (cleaned.length - 10)
        else cleaned
      String.mk ('1' :: '(' :: (cleaned2.take 3 ++ ')' :: (cleaned2.drop 3 ++ vonageDomainChars)))

/-- `fax_to_vonage_email` (src/data_import.py lines 64-66): legacy wrapper,
the `domain` argument is accepted but not used. -/
def fax_to_vonage_email (fax_number : String) (domain : String) : String :=
  convert_fax_to_vonage_email fax_number

/-! ## Vonage email validator (`src/database.py`, `validate_vonage_email`) -/

/-- Consume exactly `n` ASCII digits from the front of the list. -/
def digitsN : Nat → List Char → Option (List Char)
  | 0, cs => some cs
  | _ + 1, [] => none
  | n + 1, c :: cs => if c.isDigit then digitsN n cs else none

/-- Consume an exact literal from the front of the list. -/
def litN : List Char → List Char → Option (List Char)
  | [], cs => some cs
  | _ :: _, [] => none
  | p :: ps, c :: cs => if c = p then litN ps cs else none

/-- The parenthesized alternative `1\(\d{3}\)\d{7}@fax\.vonagebusiness\.com`
matched against the whole list. -/
def vonParenB (cs : List Char) : Bool :=
  ((((litN ['1', '('] cs).bind (digitsN 3)).bind (litN [')'])).bind
    (digitsN 7)).bind (litN vonageDomainChars) = some []

/-- The plain alternative `1\d{10}@fax\.vonagebusiness\.com` matched against
the whole list. -/
def vonPlainB (cs : List Char) : Bool :=
  ((litN ['1'] cs).bind (digitsN 10)).bind (litN vonageDomainChars) = some []

/-- The body of the regex `^1(?:\(\d{3}\)\d{7}|\d{10})@fax\.vonagebusiness\.com`
matched against the whole list: the regex matches exactly when one of its
two alternatives does. -/
def vonMatchBody (cs : List Char) : Bool :=
  vonParenB cs || vonPlainB cs

/-- `validate_vonage_email` (src/database.py lines 814-826):
`re.match(r'^1(?:\(\d{3}\)\d{7}|\d{10})@fax\.vonagebusiness\.com$', email)`.
Python's `$` matches at the end of the string or just before a newline at the
end of the string, so a single trailing newline is also accepted. -/
def validate_vonage_email (email : String) : Bool :=
  if email = "" then false
  else
    vonMatchBody email.data ||
      (if email.data.getLast? = some '\n' then vonMatchBody email.data.dropLast
       else false)

/-- Modelled from the spec: the parenthesized gateway format
`1(\d{3})\d{7}@fax\.vonagebusiness\.com`, as an exact string shape. -/
def specVonParen (s : String) : Prop :=
  ∃ a b : List Char,
    s.data = '1' :: '(' :: (a ++ ')' :: (b ++ vonageDomainChars)) ∧
      a.length = 3 ∧ b.length = 7 ∧ (∀ c ∈ a, c.isDigit) ∧ (∀ c ∈ b, c.isDigit)

/-- Modelled from the spec: the plain-digit gateway format
`1\d{10}@fax\.vonagebusiness\.com`, as an exact string shape. -/
def specVonPlain (s : String) : Prop :=
  ∃ b : List Char,
    s.data = '1' :: (b ++ vonageDomainChars) ∧ b.length = 10 ∧ ∀ c ∈ b, c.isDigit

/-! ## Regex engine for the contact-info parsers

`parse_fax_number` and `parse_phone_number` (src/data_import.py lines 9-45)
use `re.search` with a fixed family of patterns built from: character
classes, literals, greedy `*` over a character class, greedy `?`, ordered
alternation, and `(\d{n})` capture groups. The engine below enumerates the
candidate matches of such a pattern in Python's backtracking priority order
(greedy first, left alternative first); the head of the list is the match
Python's `re` returns at a given start position. -/

/-- Regex AST covering the constructs the source patterns use. -/
inductive RE where
  | eps : RE
  | cset : (Char → Bool) → RE
  | litR : List Char → RE
  | grp : Nat → RE
  | starC : (Char → Bool) → RE
  | optR : RE → RE
  | altR : RE → RE → RE
  | catR : RE → RE → RE

/-- All ways a greedy star over a character class can split the input,
longest prefix first. -/
def starSplits (p : Char → Bool) : List Char → List (List Char)
  | [] => [[]]
  | c :: cs => if p c then starSplits p cs ++ [c :: cs] else [c :: cs]

/-- All candidate matches of a pattern against a prefix of `cs`, in Python's
backtracking priority order; each result is (captured groups, rest). -/
def mtch : RE → List Char → List (List (List Char) × List Char)
  | RE.eps, cs => [([], cs)]
  | RE.cset p, [] => []
  | RE.cset p, c :: cs => if p c then [([], cs)] else []
  | RE.litR l, cs =>
    match litN l cs with
    | some r => [([], r)]
    | none => []
  | RE.grp n, cs =>
    match digitsN n cs with
    | some r => [([cs.take n], r)]
    | none => []
  | RE.starC p, cs => (starSplits p cs).map (fun r => ([], r))
  | RE.optR r, cs => mtch r cs ++ [([], cs)]
  | RE.altR a b, cs => mtch a cs ++ mtch b cs
  | RE.catR a b, cs =>
    (mtch a cs).flatMap fun gr =>
      (mtch b gr.2).map fun gr2 => (gr.1 ++ gr2.1, gr2.2)

/-- `re.search`: try each start position left to right, returning the
captured groups of the first (highest-priority) match found. -/
def searchRE (r : RE) : List Char → Option (List (List Char))
  | [] => (mtch r []).head?.map Prod.fst
  | c :: cs =>
    match (mtch r (c :: cs)).head? with
    | some gr => some gr.1
    | none => searchRE r cs

/-! ### The source patterns -/

/-- `[Ff]` etc: Lean's `Char.toLower` maps exactly `A`-`Z` down, so
`c.toLower = x` for lowercase `x` is exactly the two-letter class. -/
def ciCh (x : Char) : RE := RE.cset fun c => c.toLower = x

def chR (x : Char) : RE := RE.cset fun c => c = x

/-- `[-.\s]`: the digit-group separator class of the patterns. -/
def sepCh (c : Char) : Bool := c = '-' || c = '.' || pyIsSpace c

/-- Chain a list of regexes left to right. -/
def catL : List RE → RE
  | [] => RE.eps
  | [r] => r
  | r :: rs => RE.catR r (catL rs)

/-- `[Ff][Aa][Xx]`. -/
def faxLabelRE : RE := RE.catR (ciCh 'f') (RE.catR (ciCh 'a') (ciCh 'x'))

/-- `\s*(?:[Nn]umber)?\s*:?\s*\(?\s*(\d{3})\s*\)?\s*[-.\s]*(\d{3})\s*[-.\s]*(\d{4})`,
the tail of the first fax pattern. -/
def faxTail1 : RE :=
  catL [RE.starC pyIsSpace,
        RE.optR (RE.catR (ciCh 'n') (RE.litR "umber".data)),
        RE.starC pyIsSpace, RE.optR (chR ':'), RE.starC pyIsSpace,
        RE.optR (chR '('), RE.starC pyIsSpace, RE.grp 3,
        RE.starC pyIsSpace, RE.optR (chR ')'), RE.starC pyIsSpace,
        RE.starC sepCh, RE.grp 3, RE.starC pyIsSpace, RE.starC sepCh, RE.grp 4]

/-- `\s*:?\s*(\d{3})\s*[-.\s]*(\d{3})\s*[-.\s]*(\d{4})`, the tail of the
second fax pattern. -/
def faxTail2 : RE :=
  catL [RE.starC pyIsSpace, RE.optR (chR ':'), RE.starC pyIsSpace,
        RE.grp 3, RE.starC pyIsSpace, RE.starC sepCh, RE.grp 3,
        RE.starC pyIsSpace, RE.starC sepCh, RE.grp 4]

def faxPat1 : RE := RE.catR faxLabelRE faxTail1

def faxPat2 : RE := RE.catR faxLabelRE faxTail2

/-- `(?:[Pp]hone|[Pp][Hh]|[Tt]el|[Oo]ffice)`. -/
def phoneLabelRE : RE :=
  RE.altR (RE.catR (ciCh 'p') (RE.litR "hone".data))
    (RE.altR (RE.catR (ciCh 'p') (ciCh 'h'))
      (RE.altR (RE.catR (ciCh 't') (RE.litR "el".data))
        (RE.catR (ciCh 'o') (RE.litR "ffice".data))))

/-- `(?:[Pp]hone|[Pp][Hh]|[Tt]el|[Oo]ffice)\s*:?\s*\(?\s*(\d{3})\s*\)?\s*[-.\s]*(\d{3})\s*[-.\s]*(\d{4})`. -/
def phonePat1 : RE :=
  RE.catR phoneLabelRE
    (catL [RE.starC pyIsSpace, RE.optR (chR ':'), RE.starC pyIsSpace,
           RE.optR (chR '('), RE.starC pyIsSpace, RE.grp 3,
           RE.starC pyIsSpace, RE.optR (chR ')'), RE.starC pyIsSpace,
           RE.starC sepCh, RE.grp 3, RE.starC pyIsSpace, RE.starC sepCh, RE.grp 4])

/-- `\((\d{3})\)\s*(\d{3})\s*[-.\s]*(\d{4})`. -/
def phonePat2 : RE :=
  catL [chR '(', RE.grp 3, chR ')', RE.starC pyIsSpace, RE.grp 3,
        RE.starC pyIsSpace, RE.starC sepCh, RE.grp 4]

/-- `(\d{3})\s*[-.\s](\d{3})\s*[-.\s](\d{4})`. -/
def phonePat3 : RE :=
  catL [RE.grp 3, RE.starC pyIsSpace, RE.cset sepCh, RE.grp 3,
        RE.starC pyIsSpace, RE.cset sepCh, RE.grp 4]

/-- Join three captured digit groups as `NNN-NNN-NNNN`. -/
def joinGroups (gs : List (List Char)) : String :=
  match gs with
  | [g0, g1, g2] => String.mk (g0 ++ '-' :: (g1 ++ '-' :: g2))
  | _ => ""

/-- Try patterns in order; first one whose search succeeds wins. -/
def tryPatterns : List RE → List Char → String
  | [], _ => ""
  | p :: ps, cs =>
    match searchRE p cs with
    | some gs => joinGroups gs
    | none => tryPatterns ps cs

/-! ## Contact-info parsers (`src/data_import.py` lines 9-45) -/

/-- `parse_fax_number`: search the two fax patterns, in order, over the raw
text. -/
def parse_fax_number (contact_info : String) : String :=
  if contact_info = "" then ""
  else tryPatterns [faxPat1, faxPat2] contact_info.data

/-- Does the (already lowercased) list start with `fax`? -/
def startsFax : List Char → Bool
  | 'f' :: 'a' :: 'x' :: _ => true
  | _ => false

/-- Does `fax` occur in the (already lowercased) list? -/
def hasFaxL : List Char → Bool
  | [] => false
  | c :: cs => startsFax (c :: cs) || hasFaxL cs

/-- Does `"fax"` occur in the string, case-insensitively (`"fax" in l.lower()`)? -/
def hasFax (cs : List Char) : Bool := hasFaxL (cs.map Char.toLower)

/-- Split on newlines, Python `str.split("\n")` (always at least one piece). -/
def splitNL : List Char → List (List Char)
  | [] => [[]]
  | '\n' :: cs => [] :: splitNL cs
  | c :: cs =>
    match splitNL cs with
    | l :: ls => (c :: l) :: ls
    | [] => [[c]]

/-- Join lines with newlines, Python `"\n".join(lines)`. -/
def joinNL : List (List Char) → List Char
  | [] => []
  | [l] => l
  | l :: ls => l ++ '\n' :: joinNL ls

/-- `parse_phone_number`: drop every line containing `"fax"`
(case-insensitive); if any line survives, search the joined survivors,
otherwise fall back to the original text; then try the three phone
patterns in order. -/
def parse_phone_number (contact_info : String) : String :=
  if contact_info = "" then ""
  else
    let lines := splitNL contact_info.data
    let non_fax_lines := lines.filter fun l => !hasFax l
    let text := if non_fax_lines ≠ [] then joinNL non_fax_lines
                else contact_info.data
    tryPatterns [phonePat1, phonePat2, phonePat3] text

/-! ## Spreadsheet import row loop (`src/data_import.py`, `import_excel`)

Only the row-classification logic (lines 168-193 and the practice-record
creation at line 224) is modelled: per row the loop reads four cells,
skips fully blank rows, synthesizes `"<previous name> (Branch)"` for rows
with a blank practice name when a previous row supplied one, skips blank
rows with no prior name, and otherwise records the row's practice under its
stripped name. -/

structure ImportRow where
  practice_name : Option String
  address : Option String
  contact_info : Option String
  providers_text : Option String

/-- Python falsiness of a cell value (`None` or the empty string). -/
def cellBlank : Option String → Bool
  | none => true
  | some s => s = ""

structure ImportState where
  current_practice_name : Option String
  rows_processed : Nat
  skipped_rows : Nat
  /-- the `name` field of each practice record created, in creation order. -/
  names : List String

def initImportState : ImportState := ⟨none, 0, 0, []⟩

def pyStripS (s : String) : String := String.mk (pyStrip s.data)

/-- One iteration of the `import_excel` row loop. -/
def importStep (st : ImportState) (r : ImportRow) : ImportState :=
  if cellBlank r.practice_name && cellBlank r.address && cellBlank r.contact_info
      && cellBlank r.providers_text then
    { st with skipped_rows := st.skipped_rows + 1 }
  else if cellBlank r.practice_name then
    match st.current_practice_name with
    | some cur =>
      { st with rows_processed := st.rows_processed + 1,
                names := st.names ++ [pyStripS (cur ++ " (Branch)")] }
    | none => { st with skipped_rows := st.skipped_rows + 1 }
  else
    let n := r.practice_name.getD ""
    { st with current_practice_name := some n,
              rows_processed := st.rows_processed + 1,
              names := st.names ++ [pyStripS n] }

def import_rows (rows : List ImportRow) : ImportState :=
  rows.foldl importStep initImportState

/-- The practice name the loop's `current_practice_name` holds after a list
of rows: the last non-blank practice-name cell. -/
def lastSuppliedName (rows : List ImportRow) : Option String :=
  rows.foldl
    (fun acc r => if cellBlank r.practice_name then acc else some (r.practice_name.getD ""))
    none

/-! ## Entity records and the database model -/

structure ContactR where
  practice_id : Nat
  contact_type : String
  contact_date : Option Int
  deriving DecidableEq

structure LunchR where
  id : Nat
  practice_id : Nat
  status : String
  scheduled_date : Option Int
  scheduled_time : String
  completed_date : Option Int
  deriving DecidableEq

structure CookieR where
  practice_id : Nat
  visit_date : Option Int
  deriving DecidableEq

structure ThankYouR where
  practice_id : Nat
  provider_id : Option Nat
  lunch_id : Option Nat
  status : String
  reason : String
  created_at : Option Int
  deriving DecidableEq

structure PracticeR where
  id : Nat
  name : String
  status : String
  deriving DecidableEq

structure ProviderR where
  id : Nat
  name : String
  practice_id : Option Nat
  status : String
  deriving DecidableEq

structure DB where
  practices : List PracticeR
  providers : List ProviderR
  contact_log : List ContactR
  lunches : List LunchR
  thank_yous : List ThankYouR
  cookies : List CookieR
  deriving DecidableEq

/-- Insertion sort by a boolean comparator (models SQL `ORDER BY`; tie order
is unspecified there and never matters below). -/
def insertBy (le : α → α → Bool) (x : α) : List α → List α
  | [] => [x]
  | y :: ys => if le x y then x :: y :: ys else y :: insertBy le x ys

def sortB (le : α → α → Bool) : List α → List α
  | [] => []
  | x :: xs => insertBy le x (sortB le xs)

/-- Descending date order (`ORDER BY date DESC`), missing dates last. -/
def dateDesc : Option Int → Option Int → Bool
  | _, none => true
  | none, some _ => false
  | some a, some b => decide (b ≤ a)

/-- `get_all_practices(status_filter)` (src/database.py lines 226-235). -/
def get_all_practices (db : DB) (status : String) : List PracticeR :=
  sortB (fun a b => decide (a.name ≤ b.name)) (db.practices.filter fun p => p.status == status)

/-- `get_contact_log(practice_id, limit)` (src/database.py lines 379-397):
filter by practice, most recent first, limited. -/
def get_contact_log (db : DB) (pid : Nat) (lim : Nat) : List ContactR :=
  (sortB (fun a b => dateDesc a.contact_date b.contact_date)
      (db.contact_log.filter fun c => c.practice_id == pid)).take lim

/-- `get_lunches(practice_id, status_filter)` (src/database.py lines 437-454). -/
def get_lunches (db : DB) (pid : Nat) (status : String) : List LunchR :=
  sortB (fun a b => dateDesc a.scheduled_date b.scheduled_date)
    (db.lunches.filter fun l => l.practice_id == pid && l.status == status)

/-- `get_thank_yous(practice_id, status_filter)` (src/database.py lines 517-539). -/
def get_thank_yous (db : DB) (pid : Nat) (status : String) : List ThankYouR :=
  sortB (fun a b => dateDesc a.created_at b.created_at)
    (db.thank_yous.filter fun ty => ty.practice_id == pid && ty.status == status)

/-- `get_providers_for_practice(practice_id)` (src/database.py lines 284-290):
every provider row of the practice, ordered by name — note: no status filter. -/
def get_providers_for_practice (db : DB) (pid : Nat) : List ProviderR :=
  sortB (fun a b => decide (a.name ≤ b.name))
    (db.providers.filter fun pr => pr.practice_id == some pid)

/-! ## Relationship scoring engine (`src/utils.py`, `relationship_score`) -/

/-- `days_since` (src/utils.py lines 131-149) on a day-number date:
`(now - date).days`, `None` for a missing or unparseable date. -/
def days_since (now : Int) : Option Int → Option Int
  | none => none
  | some d => some (now - d)

/-- Recency bonus: most recent contact within 30 days +20, 60 +10, 90 +5. -/
def recencyScore (now : Int) (contacts : List ContactR) : Nat :=
  match contacts.head? with
  | none => 0
  | some c =>
    match days_since now c.contact_date with
    | none => 0
    | some days =>
      if days ≤ 30 then 20 else if days ≤ 60 then 10 else if days ≤ 90 then 5 else 0

/-- Frequency: +5 per contact within the trailing 180 days, capped at 30. -/
def frequencyScore (now : Int) (contacts : List ContactR) : Nat :=
  min ((contacts.filter fun c =>
    match days_since now c.contact_date with
    | some d => decide (d ≤ 180)
    | none => false).length * 5) 30

/-- Lunches: +10 per Completed lunch, capped at 25. -/
def lunchScore (lunches : List LunchR) : Nat :=
  min ((lunches.filter fun l => l.status == "Completed").length * 10) 25

/-- Cookie visits: +5 per visit within the trailing 180 days, capped at 15. -/
def cookieScore (now : Int) (cookies : List CookieR) : Nat :=
  min ((cookies.filter fun cv =>
    match days_since now cv.visit_date with
    | some d => decide (d ≤ 180)
    | none => false).length * 5) 15

/-- Variety: +3 per distinct contact type, capped at 10. -/
def varietyScore (contacts : List ContactR) : Nat :=
  min ((contacts.map (·.contact_type)).dedup.length * 3) 10

/-- `relationship_score` (src/utils.py lines 152-189), as a function of the
activity history the database accessors return (contacts most recent first,
up to 100 of them): the sum of the five capped contributions, clamped to 100. -/
def relationship_score (now : Int) (contacts : List ContactR) (lunches : List LunchR)
    (cookies : List CookieR) : Nat :=
  min (recencyScore now contacts + frequencyScore now contacts + lunchScore lunches
    + cookieScore now cookies + varietyScore contacts) 100

/-! ## Overdue-item deriver (`src/utils.py`, `get_overdue_items`) -/

structure OverdueItem where
  itype : String
  practice : String
  practice_id : Nat
  detail : String
  days_overdue : Int
  priority : String
  deriving DecidableEq

/-- The last-contact section (src/utils.py lines 263-285): a `No Contact`
item when the practice has no contact-log entries, a `Follow-up Overdue` item
when the latest contact is older than the configured threshold. -/
def followupItems (db : DB) (now : Int) (lunch_followup : Int) (p : PracticeR) :
    List OverdueItem :=
  match get_contact_log db p.id 1 with
  | [] => [⟨"No Contact", p.name, p.id, "No contact logged yet", 0, "high"⟩]
  | c :: _ =>
    match days_since now c.contact_date with
    | some days =>
      if days ≠ 0 && lunch_followup < days then
        [⟨"Follow-up Overdue", p.name, p.id,
          "Last contact was " ++ toString days ++ " days ago",
          days - lunch_followup, if 120 < days then "high" else "medium"⟩]
      else []
    | none => []

/-- The pending thank-you section (src/utils.py lines 287-299). -/
def tyItems (db : DB) (now : Int) (p : PracticeR) : List OverdueItem :=
  (get_thank_yous db p.id "Pending").flatMap fun ty =>
    match days_since now ty.created_at with
    | some days =>
      if days ≠ 0 && 7 < days then
        [⟨"Thank You Letter", p.name, p.id,
          "Pending for " ++ toString days ++ " days (" ++ ty.reason ++ ")",
          days - 7, "medium"⟩]
      else []
    | none => []

/-- The scheduled-lunch section (src/utils.py lines 301-314): an
`Upcoming Lunch` item for each Scheduled lunch whose `days_since` is
strictly negative. -/
def lunchItems (db : DB) (now : Int) (p : PracticeR) : List OverdueItem :=
  (get_lunches db p.id "Scheduled").flatMap fun l =>
    match l.scheduled_date with
    | some d =>
      if now - d < 0 then
        [⟨"Upcoming Lunch", p.name, p.id,
          "Lunch in " ++ toString (-(now - d)) ++ " days - " ++ l.scheduled_time,
          now - d, "medium"⟩]
      else []
    | none => []

/-- `get_overdue_items` (src/utils.py lines 253-317): scan all Active
practices, emit the three sections per practice, sort by `days_overdue`
descending. -/
def get_overdue_items (db : DB) (now : Int) (lunch_followup : Int) : List OverdueItem :=
  sortB (fun a b => decide (b.days_overdue ≤ a.days_overdue))
    ((get_all_practices db "Active").flatMap fun p =>
      followupItems db now lunch_followup p ++ tyItems db now p ++ lunchItems db now p)

/-! ## Lunch completion (`src/pages/action_items.py`, `_show_complete_lunch_dialog`)

The `Confirm Completed` branch (lines 555-577): mark the lunch Completed,
create one Pending / Post-Lunch thank-you letter per provider returned by
`get_providers_for_practice` (which does not filter by status), and append
one `Lunch` contact-log entry for the practice. -/
def completeLunch (db : DB) (lunch : LunchR) (now : Int) : DB :=
  { db with
    lunches := db.lunches.map fun l =>
      if l.id == lunch.id then { l with status := "Completed", completed_date := some now }
      else l,
    thank_yous := db.thank_yous ++
      (get_providers_for_practice db lunch.practice_id).map fun prov =>
        { practice_id := lunch.practice_id, provider_id := some prov.id,
          lunch_id := some lunch.id, status := "Pending", reason := "Post-Lunch",
          created_at := some now },
    contact_log := db.contact_log ++
      [{ practice_id := lunch.practice_id, contact_type := "Lunch",
         contact_date := some now }] }

/-- The condition under which a lunch row yields an `Upcoming Lunch` item
for practice `pid`: it belongs to the practice, is Scheduled, and its
scheduled date has a strictly negative days-since (it lies in the future). -/
def upcomingLunchCond (now : Int) (pid : Nat) (l : LunchR) : Bool :=
  l.practice_id == pid && l.status == "Scheduled" &&
    (match l.scheduled_date with
     | some d => decide (now - d < 0)
     | none => false)

/-! ## Concrete databases for counterexamples and witnesses -/

/-- A practice whose only provider is Inactive, with a Scheduled lunch. -/
def dbInactiveProv : DB :=
  { practices := [⟨1, "ABC Clinic", "Active"⟩],
    providers := [⟨1, "Dr. Jones", some 1, "Inactive"⟩],
    contact_log := [], lunches := [⟨1, 1, "Scheduled", some 50, "noon", none⟩],
    thank_yous := [], cookies := [] }

def lunchInactiveProv : LunchR := ⟨1, 1, "Scheduled", some 50, "noon", none⟩

/-- An active practice whose only lunch is Scheduled with a past date
(day 99, "today" being day 100). -/
def dbPastLunch : DB :=
  { practices := [⟨1, "ABC Clinic", "Active"⟩], providers := [],
    contact_log := [⟨1, "Phone Call", some 95⟩],
    lunches := [⟨1, 1, "Scheduled", some 99, "noon", none⟩],
    thank_yous := [], cookies := [] }

/-- An active practice with zero contact-log entries and one Pending
thank-you letter created 20 days ago (day 80, "today" being day 100). -/
def dbNoContactTY : DB :=
  { practices := [⟨1, "ABC Clinic", "Active"⟩], providers := [],
    contact_log := [],
    lunches := [],
    thank_yous := [⟨1, none, none, "Pending", "Post-Lunch", some 80⟩],
    cookies := [] }

/-- A two-provider practice for the lunch-completion witness. -/
def dbTwoProv : DB :=
  { practices := [⟨1, "ABC Clinic", "Active"⟩],
    providers := [⟨1, "Dr. Jones", some 1, "Active"⟩, ⟨2, "Dr. Smith", some 1, "Active"⟩,
                  ⟨3, "Dr. Other", some 2, "Active"⟩],
    contact_log := [], lunches := [⟨1, 1, "Scheduled", some 50, "noon", none⟩],
    thank_yous := [], cookies := [] }

/-- An active practice with zero contacts and nothing else, for the
no-contact witness. -/
def dbNoContact : DB :=
  { practices := [⟨1, "ABC Clinic", "Active"⟩], providers := [],
    contact_log := [], lunches := [], thank_yous := [], cookies := [] }

/-- An active practice with one future Scheduled lunch (day 105, "today"
being day 100), for the upcoming-lunch witness. -/
def dbFutureLunch : DB :=
  { practices := [⟨1, "ABC Clinic", "Active"⟩], providers := [],
    contact_log := [⟨1, "Phone Call", some 95⟩],
    lunches := [⟨1, 1, "Scheduled", some 105, "noon", none⟩],
    thank_yous := [], cookies := [] }



/-! # Theorems -/

/-! ## Sorting and counting helpers -/

theorem insertBy_perm (le : α → α → Bool) (x : α) (l : List α) :
    List.Perm (insertBy le x l) (x :: l) := by
  induction l with
  | nil => exact List.Perm.refl _
  | cons y ys ih =>
    unfold insertBy
    split
    · exact List.Perm.refl _
    · exact (List.Perm.cons y ih).trans (List.Perm.swap x y ys)

theorem sortB_perm (le : α → α → Bool) (l : List α) : List.Perm (sortB le l) l := by
  induction l with
  | nil => exact List.Perm.refl _
  | cons x xs ih => exact (insertBy_perm le x (sortB le xs)).trans (List.Perm.cons x ih)

theorem sortB_length (le : α → α → Bool) (l : List α) :
    (sortB le l).length = l.length :=
  (sortB_perm le l).length_eq

theorem sortB_countP (le : α → α → Bool) (p : α → Bool) (l : List α) :
    (sortB le l).countP p = l.countP p :=
  (sortB_perm le l).countP_eq p

theorem sortB_mem (le : α → α → Bool) (a : α) (l : List α) :
    a ∈ sortB le l ↔ a ∈ l :=
  (sortB_perm le l).mem_iff

theorem countP_flatMap (p : α → Bool) (l : List β) (f : β → List α) :
    (l.flatMap f).countP p = (l.map fun b => (f b).countP p).sum := by
  induction l with
  | nil => simp
  | cons x xs ih => simp [List.flatMap_cons, List.countP_append, ih]

/-! ## C2: score boundedness -/

/-- C2: for every practice activity history (any lists of contact-log
entries, lunches, and cookie visits), the five score contributions are
individually capped at 20/30/25/15/10, and the relationship score is an
integer between 0 and 100 inclusive. -/
theorem c2_relationship_score_bounded (now : Int) (contacts : List ContactR)
    (lunches : List LunchR) (cookies : List CookieR) :
    recencyScore now contacts ≤ 20 ∧ frequencyScore now contacts ≤ 30 ∧
    lunchScore lunches ≤ 25 ∧ cookieScore now cookies ≤ 15 ∧
    varietyScore contacts ≤ 10 ∧
    0 ≤ relationship_score now contacts lunches cookies ∧
    relationship_score now contacts lunches cookies ≤ 100 := by
  refine ⟨?_, Nat.min_le_right _ _, Nat.min_le_right _ _, Nat.min_le_right _ _,
    Nat.min_le_right _ _, Nat.zero_le _, Nat.min_le_right _ _⟩
  unfold recencyScore
  repeat' split
  all_goals omega

/-! ## C9: monotonicity in completed lunches -/

/-- C9: adding one more Completed lunch (contacts, cookies and the other
lunches fixed) never decreases the relationship score, and once three or
more Completed lunches are present (the 25-point lunch cap), adding another
leaves the score unchanged. -/
theorem c9_completed_lunch_monotone (now : Int) (contacts : List ContactR)
    (lunches : List LunchR) (cookies : List CookieR) (newLunch : LunchR)
    (hc : newLunch.status = "Completed") :
    relationship_score now contacts lunches cookies ≤
      relationship_score now contacts (lunches ++ [newLunch]) cookies ∧
    (3 ≤ ((lunches.filter fun l => l.status == "Completed").length) →
      relationship_score now contacts (lunches ++ [newLunch]) cookies =
        relationship_score now contacts lunches cookies) := by
  have hfil : (lunches ++ [newLunch]).filter (fun l => l.status == "Completed") =
      (lunches.filter fun l => l.status == "Completed") ++ [newLunch] := by
    rw [List.filter_append]
    simp [List.filter, hc]
  have hlen : ((lunches ++ [newLunch]).filter fun l => l.status == "Completed").length =
      ((lunches.filter fun l => l.status == "Completed")).length + 1 := by
    simp [hfil]
  constructor
  · apply min_le_min _ (le_refl 100)
    have : lunchScore lunches ≤ lunchScore (lunches ++ [newLunch]) := by
      unfold lunchScore
      rw [hlen]
      exact min_le_min (by omega) (le_refl 25)
    unfold relationship_score at *
    omega
  · intro h3
    have h1 : lunchScore (lunches ++ [newLunch]) = 25 := by
      unfold lunchScore
      rw [hlen]
      omega
    have h2 : lunchScore lunches = 25 := by
      unfold lunchScore
      omega
    unfold relationship_score
    rw [h1, h2]

/-- Witness for C9 at a concrete history. -/
theorem c9_completed_lunch_monotone_witness :
    relationship_score 100 [] [⟨1, 1, "Completed", some 50, "", some 50⟩] [] ≤
      relationship_score 100 []
        ([⟨1, 1, "Completed", some 50, "", some 50⟩] ++ [⟨2, 1, "Completed", some 60, "", some 60⟩]) [] :=
  (c9_completed_lunch_monotone 100 [] [⟨1, 1, "Completed", some 50, "", some 50⟩] []
    ⟨2, 1, "Completed", some 60, "", some 60⟩ rfl).1

/-! ## C1: fax-email normalizer -/

theorem pyStrip_eq_nil (cs : List Char) (h : pyStrip cs = []) :
    ∀ c ∈ cs, pyIsSpace c = true := by
  unfold pyStrip at h
  have h1 : List.dropWhile pyIsSpace ((List.dropWhile pyIsSpace cs).reverse) = [] :=
    List.reverse_eq_nil_iff.mp h
  have h2 := List.dropWhile_eq_nil_iff.mp h1
  intro c hc
  rw [← List.takeWhile_append_dropWhile (p := pyIsSpace) (l := cs)] at hc
  rcases List.mem_append.mp hc with hm | hm
  · exact List.mem_takeWhile_imp hm
  · exact h2 c (List.mem_reverse.mpr hm)

theorem digit_not_space (c : Char) (h : c.isDigit = true) : pyIsSpace c = false := by
  by_contra hsp
  have hsp' : pyIsSpace c = true := by
    cases hpy : pyIsSpace c
    · exact absurd hpy hsp
    · rfl
  simp only [pyIsSpace, Bool.or_eq_true, decide_eq_true_eq] at hsp'
  rcases hsp' with (((((h' | h') | h') | h') | h') | h') <;> subst h' <;>
    exact absurd h (by decide)

theorem digits_imp_guards (cs : List Char) (h : cs.filter Char.isDigit ≠ []) :
    pyStrip cs ≠ [] ∧ cs ≠ [] := by
  have hex : ∃ c ∈ cs, Char.isDigit c = true := by
    by_contra hall
    push_neg at hall
    exact h (List.filter_eq_nil_iff.mpr fun a ha => by simp [hall a ha])
  obtain ⟨c, hc, hd⟩ := hex
  constructor
  · intro hnil
    have := pyStrip_eq_nil cs hnil c hc
    rw [digit_not_space c hd] at this
    exact Bool.false_ne_true this
  · intro hnil
    subst hnil
    exact absurd hc (List.not_mem_nil c)

/-- Case analysis of `convert_fax_to_vonage_email` on the digit count. -/
theorem convert_cases (fax : String) :
    ((digitsOf fax).length < 10 → convert_fax_to_vonage_email fax = "") ∧
    ((digitsOf fax).length = 10 →
      convert_fax_to_vonage_email fax = mkVonage (digitsOf fax)) ∧
    ((digitsOf fax).length = 11 → (digitsOf fax).head? = some '1' →
      convert_fax_to_vonage_email fax = mkVonage ((digitsOf fax).drop 1)) ∧
    (10 < (digitsOf fax).length →
      ((digitsOf fax).length = 11 → ¬(digitsOf fax).head? = some '1') →
      convert_fax_to_vonage_email fax = mkVonage ((digitsOf fax).drop ((digitsOf fax).length - 10))) := by
  simp only [convert_fax_to_vonage_email, digitsOf]
  by_cases hlt : (List.filter Char.isDigit fax.data).length < 10
  · refine ⟨fun _ => ?_, fun h10 => absurd h10 (by omega), fun h11 => absurd h11 (by omega),
      fun hgt => absurd hgt (by omega)⟩
    split
    all_goals rfl
  · have hne : fax.data.filter Char.isDigit ≠ [] := by
      intro hnil
      rw [hnil] at hlt
      simp at hlt
    obtain ⟨hstrip, hdata⟩ := digits_imp_guards fax.data hne
    have hfax : ¬fax = "" := fun hnil => by
      subst hnil
      exact hdata rfl
    rw [if_neg (by simp [hfax, hstrip]), if_neg hlt]
    refine ⟨fun h => absurd h hlt, fun h10 => ?_, fun h11 h1 => ?_, fun hgt hno => ?_⟩
    · rw [if_neg (by simp [h10]), if_neg (by omega)]
      rfl
    · rw [if_pos (by simp [h11, h1])]
      rfl
    · rw [if_neg (by
        simp only [Bool.and_eq_true, decide_eq_true_eq]
        rintro ⟨ha, hb⟩
        exact hno ha hb), if_pos (by omega)]
      rfl

/-- C1, corrected claim: the normalizer strips non-digits, rejects fewer
than 10 digits, drops a leading `1` from an 11-digit number, keeps the last
10 digits of a longer number, but outputs the parenthesized form
`1(AAA)LLLLLLL@fax.vonagebusiness.com`, ignoring the `domain` argument. -/
theorem c1_normalizer_amended (fax domain : String) :
    ((digitsOf fax).length < 10 → fax_to_vonage_email fax domain = "") ∧
    ((digitsOf fax).length = 10 →
      fax_to_vonage_email fax domain = mkVonage (digitsOf fax)) ∧
    ((digitsOf fax).length = 11 → (digitsOf fax).head? = some '1' →
      fax_to_vonage_email fax domain = mkVonage ((digitsOf fax).drop 1)) ∧
    (10 < (digitsOf fax).length →
      ((digitsOf fax).length = 11 → ¬(digitsOf fax).head? = some '1') →
      fax_to_vonage_email fax domain = mkVonage ((digitsOf fax).drop ((digitsOf fax).length - 10))) :=
  convert_cases fax

/-- Witness for C1's amended claim at a ten-digit input. -/
theorem c1_normalizer_witness :
    fax_to_vonage_email "936-555-1212" "fax.example.com" = mkVonage (digitsOf "936-555-1212") :=
  (c1_normalizer_amended "936-555-1212" "fax.example.com").2.1 (by decide)

/-- C1 counterexample: on the spec's own example the code produces the
parenthesized fixed-domain address, not `"19365551212@fax.example.com"`. -/
theorem c1_normalizer_counterexample :
    fax_to_vonage_email "19365551212" "fax.example.com"
        = "1(936)5551212@fax.vonagebusiness.com" ∧
    fax_to_vonage_email "19365551212" "fax.example.com" ≠ "19365551212@fax.example.com" := by
  constructor <;> decide

/-! ## C4: fax round-trip and validator characterization -/

theorem litN_some_iff (p : List Char) : ∀ cs r : List Char,
    litN p cs = some r ↔ cs = p ++ r := by
  induction p with
  | nil => intro cs r; simp [litN]
  | cons x ps ih =>
    intro cs r
    cases cs with
    | nil => simp [litN]
    | cons c cs' =>
      by_cases hc : c = x
      · subst hc
        simp [litN, ih]
      · simp only [litN, if_neg hc, List.cons_append, List.cons.injEq]
        constructor
        · intro h
          exact absurd h (by simp)
        · rintro ⟨h, -⟩
          exact absurd h hc

theorem digitsN_some_iff (n : Nat) : ∀ cs r : List Char,
    digitsN n cs = some r ↔
      ∃ pre : List Char, cs = pre ++ r ∧ pre.length = n ∧ ∀ c ∈ pre, c.isDigit = true := by
  induction n with
  | zero =>
    intro cs r
    simp only [digitsN, Option.some.injEq]
    constructor
    · rintro rfl
      exact ⟨[], by simp⟩
    · rintro ⟨pre, h1, h2, _⟩
      rw [List.length_eq_zero] at h2
      subst h2
      simpa using h1
  | succ n ih =>
    intro cs r
    cases cs with
    | nil =>
      simp only [digitsN]
      constructor
      · intro h
        exact absurd h (by simp)
      · rintro ⟨pre, h1, h2, _⟩
        have := congrArg List.length h1
        simp at this
        omega
    | cons c cs' =>
      by_cases hd : c.isDigit
      · simp only [digitsN, hd, if_pos, ih]
        constructor
        · rintro ⟨pre, h1, h2, h3⟩
          exact ⟨c :: pre, by simp [h1], by simp [h2], by
            intro x hx
            rcases List.mem_cons.mp hx with h | h
            · subst h; exact hd
            · exact h3 x h⟩
        · rintro ⟨pre, h1, h2, h3⟩
          cases pre with
          | nil => simp at h2
          | cons p pre' =>
            simp only [List.cons_append, List.cons.injEq] at h1
            exact ⟨pre', h1.2, by simpa using h2, fun x hx => h3 x (List.mem_cons_of_mem p hx)⟩
      · simp only [digitsN, hd, if_neg]
        constructor
        · intro h
          exact absurd h (by simp)
        · rintro ⟨pre, h1, h2, h3⟩
          cases pre with
          | nil => simp at h2
          | cons p pre' =>
            simp only [List.cons_append, List.cons.injEq] at h1
            exact absurd (h1.1 ▸ h3 p (List.mem_cons_self p pre')) hd

theorem vonParenB_iff (cs : List Char) :
    vonParenB cs = true ↔
      ∃ a b : List Char, cs = '1' :: '(' :: (a ++ ')' :: (b ++ vonageDomainChars)) ∧
        a.length = 3 ∧ b.length = 7 ∧ (∀ c ∈ a, c.isDigit) ∧ (∀ c ∈ b, c.isDigit) := by
  simp only [vonParenB, decide_eq_true_eq]
  constructor
  · intro h
    rw [Option.bind_eq_some] at h
    obtain ⟨r4, h4, hdom⟩ := h
    rw [Option.bind_eq_some] at h4
    obtain ⟨r3, h3, h7⟩ := h4
    rw [Option.bind_eq_some] at h3
    obtain ⟨r2, h2, hrp⟩ := h3
    rw [Option.bind_eq_some] at h2
    obtain ⟨r1, h1, h3d⟩ := h2
    rw [litN_some_iff] at h1 hrp hdom
    rw [digitsN_some_iff] at h3d h7
    obtain ⟨a, ha1, ha2, ha3⟩ := h3d
    obtain ⟨b, hb1, hb2, hb3⟩ := h7
    refine ⟨a, b, ?_, ha2, hb2, ha3, hb3⟩
    rw [h1, ha1, hrp, hb1, hdom]
    simp
  · rintro ⟨a, b, rfl, ha2, hb2, ha3, hb3⟩
    have h1 : litN ['1', '('] ('1' :: '(' :: (a ++ ')' :: (b ++ vonageDomainChars)))
        = some (a ++ ')' :: (b ++ vonageDomainChars)) := by
      rw [litN_some_iff]; rfl
    have h2 : digitsN 3 (a ++ ')' :: (b ++ vonageDomainChars))
        = some (')' :: (b ++ vonageDomainChars)) :=
      (digitsN_some_iff 3 _ _).mpr ⟨a, rfl, ha2, ha3⟩
    have h3 : litN [')'] (')' :: (b ++ vonageDomainChars)) = some (b ++ vonageDomainChars) := by
      rw [litN_some_iff]; rfl
    have h4 : digitsN 7 (b ++ vonageDomainChars) = some vonageDomainChars :=
      (digitsN_some_iff 7 _ _).mpr ⟨b, by simp, hb2, hb3⟩
    have h5 : litN vonageDomainChars vonageDomainChars = some [] := by
      rw [litN_some_iff]; simp
    rw [h1, Option.some_bind, h2, Option.some_bind, h3, Option.some_bind, h4,
      Option.some_bind, h5]

theorem vonPlainB_iff (cs : List Char) :
    vonPlainB cs = true ↔
      ∃ b : List Char, cs = '1' :: (b ++ vonageDomainChars) ∧ b.length = 10 ∧
        ∀ c ∈ b, c.isDigit := by
  simp only [vonPlainB, decide_eq_true_eq]
  constructor
  · intro h
    rw [Option.bind_eq_some] at h
    obtain ⟨r2, h2, hdom⟩ := h
    rw [Option.bind_eq_some] at h2
    obtain ⟨r1, h1, h10⟩ := h2
    rw [litN_some_iff] at h1 hdom
    rw [digitsN_some_iff] at h10
    obtain ⟨b, hb1, hb2, hb3⟩ := h10
    refine ⟨b, ?_, hb2, hb3⟩
    rw [h1, hb1, hdom]
    simp
  · rintro ⟨b, rfl, hb2, hb3⟩
    have h1 : litN ['1'] ('1' :: (b ++ vonageDomainChars)) = some (b ++ vonageDomainChars) := by
      rw [litN_some_iff]; rfl
    have h2 : digitsN 10 (b ++ vonageDomainChars) = some vonageDomainChars :=
      (digitsN_some_iff 10 _ _).mpr ⟨b, by simp, hb2, hb3⟩
    have h3 : litN vonageDomainChars vonageDomainChars = some [] := by
      rw [litN_some_iff]; simp
    rw [h1, Option.some_bind, h2, Option.some_bind, h3]

theorem vonMatchBody_iff (s : String) :
    vonMatchBody s.data = true ↔ specVonParen s ∨ specVonPlain s := by
  simp only [vonMatchBody, Bool.or_eq_true, vonParenB_iff, vonPlainB_iff,
    specVonParen, specVonPlain]

theorem validate_iff (s : String) :
    validate_vonage_email s = true ↔
      (specVonParen s ∨ specVonPlain s) ∨
        ∃ t : String, s = t ++ "\n" ∧ (specVonParen t ∨ specVonPlain t) := by
  unfold validate_vonage_email
  by_cases hs : s = ""
  · subst hs
    simp only [if_pos rfl]
    constructor
    · intro h
      exact absurd h (by simp)
    · rintro ((h | h) | ⟨t, ht, _⟩)
      · obtain ⟨a, b, h1, -⟩ := h
        exact absurd h1 (by simp [String.data])
      · obtain ⟨b, h1, -⟩ := h
        exact absurd h1 (by simp [String.data])
      · have := congrArg String.data ht
        rw [String.data_append] at this
        simp at this
  · rw [if_neg hs]
    simp only [Bool.or_eq_true, vonMatchBody_iff]
    constructor
    · rintro (h | h)
      · exact Or.inl h
      · split at h
        · rename_i hlast
          have hsplit : s.data.dropLast ++ ['\n'] = s.data :=
            List.dropLast_append_getLast? '\n' hlast
          refine Or.inr ⟨String.mk s.data.dropLast, ?_,
            (vonMatchBody_iff (String.mk s.data.dropLast)).mp h⟩
          have happ : String.mk s.data.dropLast ++ "\n"
              = String.mk (s.data.dropLast ++ ['\n']) := rfl
          rw [happ, hsplit]
        · exact absurd h (by simp)
    · rintro (h | ⟨t, rfl, ht⟩)
      · exact Or.inl h
      · right
        have hdata : (t ++ "\n").data = t.data ++ ['\n'] := rfl
        rw [hdata, if_pos (by rw [List.getLast?_concat]), List.dropLast_concat]
        exact (vonMatchBody_iff t).mpr ht

/-- C4, corrected claim: the round trip holds (a 10-digit fax number
normalizes to an address the validator accepts) and fewer than 10 digits
yield the empty string; but the validator accepts exactly the two gateway
formats *or either format followed by one trailing newline* (Python's `$`
matches just before a final newline), not only the two exact formats. -/
theorem c4_roundtrip_amended :
    (∀ D domain : String, (digitsOf D).length = 10 →
      validate_vonage_email (fax_to_vonage_email D domain) = true) ∧
    (∀ s domain : String, (digitsOf s).length < 10 →
      fax_to_vonage_email s domain = "") ∧
    (∀ s : String, validate_vonage_email s = true ↔
      (specVonParen s ∨ specVonPlain s) ∨
        ∃ t : String, s = t ++ "\n" ∧ (specVonParen t ∨ specVonPlain t)) := by
  refine ⟨?_, ?_, validate_iff⟩
  · intro D domain h10
    have hconv : fax_to_vonage_email D domain = mkVonage (digitsOf D) :=
      (convert_cases D).2.1 h10
    rw [hconv]
    rw [validate_iff]
    refine Or.inl (Or.inl ⟨(digitsOf D).take 3, (digitsOf D).drop 3, rfl, ?_, ?_, ?_, ?_⟩)
    · rw [List.length_take, h10]
      rfl
    · rw [List.length_drop, h10]
    · intro c hc
      exact (List.mem_filter.mp (List.take_subset 3 (digitsOf D) hc)).2
    · intro c hc
      exact (List.mem_filter.mp (List.drop_subset 3 (digitsOf D) hc)).2
  · intro s domain hlt
    exact (convert_cases s).1 hlt

/-- Witness for C4's amended claim: a concrete round trip. -/
theorem c4_roundtrip_witness :
    validate_vonage_email (fax_to_vonage_email "936-555-1212" "fax.vonagebusiness.com") = true :=
  c4_roundtrip_amended.1 "936-555-1212" "fax.vonagebusiness.com" (by decide)

/-- C4 counterexample: the validator also accepts a string with a trailing
newline, which is neither of the two exact formats. -/
theorem c4_roundtrip_counterexample :
    validate_vonage_email "19365551212@fax.vonagebusiness.com\n" = true ∧
    ¬specVonParen "19365551212@fax.vonagebusiness.com\n" ∧
    ¬specVonPlain "19365551212@fax.vonagebusiness.com\n" := by
  refine ⟨by decide, ?_, ?_⟩
  · intro h
    have hb := (vonMatchBody_iff "19365551212@fax.vonagebusiness.com\n").mpr (Or.inl h)
    exact absurd hb (by decide)
  · intro h
    have hb := (vonMatchBody_iff "19365551212@fax.vonagebusiness.com\n").mpr (Or.inr h)
    exact absurd hb (by decide)

/-! ## C7: branch-row handling in import -/

theorem dropWhile_length_le (p : Char → Bool) (l : List Char) :
    (l.dropWhile p).length ≤ l.length := by
  induction l with
  | nil => simp
  | cons c cs ih =>
    by_cases h : p c
    · rw [List.dropWhile_cons_of_pos h]
      exact le_trans ih (by simp)
    · rw [List.dropWhile_cons_of_neg (by simp [h])]

theorem head_not_space_of_strip (c : Char) (rest : List Char)
    (hstr : pyStrip (c :: rest) = c :: rest) : pyIsSpace c = false := by
  by_contra hsp
  have hsp' : pyIsSpace c = true := by
    cases h : pyIsSpace c
    · exact absurd h hsp
    · rfl
  have h1 : (List.dropWhile pyIsSpace (c :: rest)).length ≤ rest.length := by
    rw [List.dropWhile_cons_of_pos hsp']
    exact dropWhile_length_le _ _
  have h2 : (pyStrip (c :: rest)).length ≤ (List.dropWhile pyIsSpace (c :: rest)).length := by
    unfold pyStrip
    rw [List.length_reverse]
    calc (List.dropWhile pyIsSpace ((List.dropWhile pyIsSpace (c :: rest)).reverse)).length
        ≤ ((List.dropWhile pyIsSpace (c :: rest)).reverse).length := dropWhile_length_le _ _
      _ = (List.dropWhile pyIsSpace (c :: rest)).length := List.length_reverse _
  rw [hstr] at h2
  simp at h2
  omega

theorem pyStrip_append_branch (cs : List Char) (hne : cs ≠ [])
    (hstr : pyStrip cs = cs) :
    pyStrip (cs ++ " (Branch)".data) = cs ++ " (Branch)".data := by
  obtain ⟨c, rest, rfl⟩ : ∃ c rest, cs = c :: rest := by
    cases cs with
    | nil => exact absurd rfl hne
    | cons c rest => exact ⟨c, rest, rfl⟩
  have hc : pyIsSpace c = false := head_not_space_of_strip c rest hstr
  unfold pyStrip
  rw [List.cons_append, List.dropWhile_cons_of_neg (by simp [hc])]
  have hrev : ((c :: rest ++ " (Branch)".data)).reverse
      = ')' :: ("hcnarB( ".data ++ (c :: rest).reverse) := by
    rw [← List.cons_append, List.reverse_append]
    rfl
  rw [← List.cons_append, hrev, List.dropWhile_cons_of_neg (by simp [pyIsSpace])]
  rw [← hrev, List.reverse_reverse, List.cons_append]

theorem importStep_current (st : ImportState) (r : ImportRow) :
    (importStep st r).current_practice_name =
      if cellBlank r.practice_name then st.current_practice_name
      else some (r.practice_name.getD "") := by
  unfold importStep
  split
  · rename_i h
    simp only [Bool.and_eq_true] at h
    rw [if_pos h.1.1.1]
  · split
    · split <;> rfl
    · rfl

theorem import_rows_current_fold (rows : List ImportRow) : ∀ st : ImportState,
    (rows.foldl importStep st).current_practice_name =
      rows.foldl
        (fun acc r => if cellBlank r.practice_name then acc else some (r.practice_name.getD ""))
        st.current_practice_name := by
  induction rows with
  | nil => intro st; rfl
  | cons r rs ih =>
    intro st
    rw [List.foldl_cons, List.foldl_cons, ih, importStep_current]

theorem import_rows_current (rows : List ImportRow) :
    (import_rows rows).current_practice_name = lastSuppliedName rows :=
  import_rows_current_fold rows initImportState

theorem lastSuppliedName_fold_ne_empty (rows : List ImportRow) : ∀ acc : Option String,
    (∀ m : String, acc = some m → m ≠ "") → ∀ N : String,
    rows.foldl
        (fun acc r => if cellBlank r.practice_name then acc else some (r.practice_name.getD ""))
        acc = some N → N ≠ "" := by
  induction rows with
  | nil => intro acc hacc N h; exact hacc N h
  | cons r rs ih =>
    intro acc hacc N h
    rw [List.foldl_cons] at h
    refine ih _ ?_ N h
    intro m hm
    by_cases hb : cellBlank r.practice_name
    · rw [if_pos hb] at hm
      exact hacc m hm
    · rw [if_neg hb] at hm
      have hm' := Option.some.inj hm
      cases hpn : r.practice_name with
      | none => rw [hpn] at hb; exact absurd rfl hb
      | some s =>
        rw [hpn] at hb hm'
        simp only [Option.getD_some] at hm'
        subst hm'
        simpa [cellBlank] using hb

theorem lastSuppliedName_ne_empty (rows : List ImportRow) (N : String)
    (h : lastSuppliedName rows = some N) : N ≠ "" :=
  lastSuppliedName_fold_ne_empty rows none (by simp) N h

/-- C7: a data row with a blank practice name but at least one of address,
contact info or provider list non-blank becomes an extra sibling practice
record named `"<previous practice name> (Branch)"` (the most recent earlier
supplied name), not counted as skipped; with no prior named row it is
skipped and counted in `skipped_rows`. -/
theorem c7_branch_rows (rows : List ImportRow) (r : ImportRow)
    (hname : cellBlank r.practice_name = true)
    (hnotempty : ¬(cellBlank r.address = true ∧ cellBlank r.contact_info = true ∧
      cellBlank r.providers_text = true)) :
    (∀ N : String, lastSuppliedName rows = some N → pyStripS N = N →
      (import_rows (rows ++ [r])).names = (import_rows rows).names ++ [N ++ " (Branch)"] ∧
      (import_rows (rows ++ [r])).skipped_rows = (import_rows rows).skipped_rows) ∧
    (lastSuppliedName rows = none →
      (import_rows (rows ++ [r])).names = (import_rows rows).names ∧
      (import_rows (rows ++ [r])).skipped_rows = (import_rows rows).skipped_rows + 1) := by
  have happ : import_rows (rows ++ [r]) = importStep (import_rows rows) r := by
    unfold import_rows
    rw [List.foldl_append]
    rfl
  have hcond : ¬((cellBlank r.practice_name && cellBlank r.address &&
      cellBlank r.contact_info && cellBlank r.providers_text) = true) := by
    simp only [Bool.and_eq_true]
    rintro ⟨⟨⟨-, hb⟩, hc⟩, hd⟩
    exact hnotempty ⟨hb, hc, hd⟩
  constructor
  · intro N hN hstrN
    have hNe : N ≠ "" := lastSuppliedName_ne_empty rows N hN
    have hcur : (import_rows rows).current_practice_name = some N := by
      rw [import_rows_current]
      exact hN
    have hbranch : pyStripS (N ++ " (Branch)") = N ++ " (Branch)" := by
      have hdne : N.data ≠ [] := by
        intro hnil
        exact hNe (by
          cases N
          simp at hnil
          simp [hnil])
      have hds : pyStrip N.data = N.data := congrArg String.data hstrN
      unfold pyStripS
      have hdata : (N ++ " (Branch)").data = N.data ++ " (Branch)".data := rfl
      rw [hdata, pyStrip_append_branch N.data hdne hds]
      rfl
    rw [happ]
    unfold importStep
    rw [if_neg hcond, if_pos hname, hcur]
    refine ⟨?_, rfl⟩
    show (import_rows rows).names ++ [pyStripS (N ++ " (Branch)")] =
      (import_rows rows).names ++ [N ++ " (Branch)"]
    rw [hbranch]
  · intro hnone
    have hcur : (import_rows rows).current_practice_name = none := by
      rw [import_rows_current]
      exact hnone
    rw [happ]
    unfold importStep
    rw [if_neg hcond, if_pos hname, hcur]
    exact ⟨rfl, rfl⟩

/-- Witness for C7 at the spec's own scenario: row 5 "ABC Clinic", row 6
blank name with a non-blank address. -/
theorem c7_branch_rows_witness :
    (import_rows ([⟨some "ABC Clinic", some "123 Main St", none, none⟩] ++
        [⟨none, some "456 Oak St", none, none⟩])).names =
      (import_rows [⟨some "ABC Clinic", some "123 Main St", none, none⟩]).names ++
        ["ABC Clinic (Branch)"] :=
  ((c7_branch_rows [⟨some "ABC Clinic", some "123 Main St", none, none⟩]
    ⟨none, some "456 Oak St", none, none⟩ (by decide)
    (by intro h; exact absurd h.1 (by decide))).1 "ABC Clinic" (by decide) (by decide)).1

/-! ## C6: lunch completion side effects -/

/-- C6, corrected claim: completing a lunch creates exactly one Pending /
Post-Lunch thank-you letter per provider of the practice *regardless of
provider status* (`get_providers_for_practice` has no status filter), and
appends exactly one contact-log entry for that practice. -/
theorem c6_complete_lunch_amended (db : DB) (lunch : LunchR) (now : Int) :
    ((completeLunch db lunch now).thank_yous.length =
      db.thank_yous.length +
        (db.providers.filter fun pr => pr.practice_id == some lunch.practice_id).length) ∧
    (∀ ty ∈ (completeLunch db lunch now).thank_yous.drop db.thank_yous.length,
      ty.status = "Pending" ∧ ty.reason = "Post-Lunch" ∧
        ty.practice_id = lunch.practice_id) ∧
    (∀ pr : ProviderR,
      (db.providers.countP fun q => q.id == pr.id && q.practice_id == some lunch.practice_id) = 1 →
      ((completeLunch db lunch now).thank_yous.countP fun ty => ty.provider_id == some pr.id) =
        (db.thank_yous.countP fun ty => ty.provider_id == some pr.id) + 1) ∧
    ((completeLunch db lunch now).contact_log.length = db.contact_log.length + 1) ∧
    (∀ c ∈ (completeLunch db lunch now).contact_log.drop db.contact_log.length,
      c.practice_id = lunch.practice_id ∧ c.contact_type = "Lunch") := by
  refine ⟨?_, ?_, ?_, ?_, ?_⟩
  · show (db.thank_yous ++ _).length = _
    rw [List.length_append, List.length_map]
    congr 1
    exact (sortB_length _ _).trans rfl
  · intro ty hty
    rw [show (completeLunch db lunch now).thank_yous = db.thank_yous ++
      ((get_providers_for_practice db lunch.practice_id).map fun prov =>
        { practice_id := lunch.practice_id, provider_id := some prov.id,
          lunch_id := some lunch.id, status := "Pending", reason := "Post-Lunch",
          created_at := some now }) from rfl, List.drop_left] at hty
    obtain ⟨prov, -, rfl⟩ := List.mem_map.mp hty
    exact ⟨rfl, rfl, rfl⟩
  · intro pr hpr
    show (db.thank_yous ++ _).countP _ = _
    rw [List.countP_append]
    congr 1
    rw [List.countP_map]
    have hc : ((get_providers_for_practice db lunch.practice_id).countP
        fun q => q.id == pr.id) = 1 := by
      unfold get_providers_for_practice
      rw [sortB_countP, List.countP_filter]
      exact hpr
    rw [← hc]
    rfl
  · show (db.contact_log ++ _).length = _
    rw [List.length_append]
    rfl
  · intro c hc
    rw [show (completeLunch db lunch now).contact_log = db.contact_log ++
      [{ practice_id := lunch.practice_id, contact_type := "Lunch",
         contact_date := some now }] from rfl, List.drop_left] at hc
    rcases List.mem_singleton.mp hc with rfl
    exact ⟨rfl, rfl⟩

/-- Witness for C6's amended claim: a two-provider practice gets two
letters, one for each provider. -/
theorem c6_complete_lunch_witness :
    (completeLunch dbTwoProv lunchInactiveProv 60).thank_yous.length =
      dbTwoProv.thank_yous.length +
        (dbTwoProv.providers.filter fun pr =>
          pr.practice_id == some lunchInactiveProv.practice_id).length ∧
    ((completeLunch dbTwoProv lunchInactiveProv 60).thank_yous.countP
        fun ty => ty.provider_id == some 1) =
      (dbTwoProv.thank_yous.countP fun ty => ty.provider_id == some 1) + 1 :=
  ⟨(c6_complete_lunch_amended dbTwoProv lunchInactiveProv 60).1,
    (c6_complete_lunch_amended dbTwoProv lunchInactiveProv 60).2.2.1
      ⟨1, "Dr. Jones", some 1, "Active"⟩ (by decide)⟩

/-- C6 counterexample: a practice whose only provider is Inactive still gets
a thank-you letter for that provider when its lunch is completed. -/
theorem c6_complete_lunch_counterexample :
    (completeLunch dbInactiveProv lunchInactiveProv 60).thank_yous.length = 1 ∧
    (dbInactiveProv.providers.filter fun pr =>
        pr.practice_id == some 1 && pr.status == "Active").length = 0 ∧
    ∀ ty ∈ (completeLunch dbInactiveProv lunchInactiveProv 60).thank_yous,
      ty.provider_id = some 1 := by
  refine ⟨by decide, by decide, by decide⟩

/-! ## C3 and C8: the overdue-item deriver -/

theorem countP_flatMap_eq (P : α → Bool) (l : List β) (e : β → List α) (c : β → Bool)
    (h : ∀ b ∈ l, ((e b).countP P) = if c b then 1 else 0) :
    ((l.flatMap e).countP P) = l.countP c := by
  induction l with
  | nil => rfl
  | cons x xs ih =>
    rw [List.flatMap_cons, List.countP_append, h x (List.mem_cons_self x xs),
      List.countP_cons, ih fun b hb => h b (List.mem_cons_of_mem x hb)]
    by_cases hc : c x = true <;> simp [hc] <;> omega

theorem sum_map_ite_const (l : List β) (c : β → Bool) (K : Nat) :
    (l.map fun b => if c b then K else 0).sum = K * l.countP c := by
  induction l with
  | nil => simp
  | cons x xs ih =>
    rw [List.map_cons, List.sum_cons, ih, List.countP_cons]
    by_cases h : c x = true <;> simp [h] <;> ring

theorem followupItems_cases (db : DB) (now lf : Int) (q : PracticeR) :
    ∀ it ∈ followupItems db now lf q,
      (it.itype = "No Contact" ∧ it.priority = "high" ∧ it.days_overdue = 0 ∧
        it.practice_id = q.id) ∨
      (it.itype = "Follow-up Overdue" ∧ it.practice_id = q.id) := by
  intro it hit
  unfold followupItems at hit
  split at hit
  · rcases List.mem_singleton.mp hit with rfl
    exact Or.inl ⟨rfl, rfl, rfl, rfl⟩
  · split at hit
    · split at hit
      · rcases List.mem_singleton.mp hit with rfl
        exact Or.inr ⟨rfl, rfl⟩
      · exact absurd hit (List.not_mem_nil it)
    · exact absurd hit (List.not_mem_nil it)

theorem tyItems_cases (db : DB) (now : Int) (q : PracticeR) :
    ∀ it ∈ tyItems db now q, it.itype = "Thank You Letter" ∧ it.practice_id = q.id := by
  intro it hit
  unfold tyItems at hit
  obtain ⟨ty, -, hmem⟩ := List.mem_flatMap.mp hit
  split at hmem
  · split at hmem
    · rcases List.mem_singleton.mp hmem with rfl
      exact ⟨rfl, rfl⟩
    · exact absurd hmem (List.not_mem_nil it)
  · exact absurd hmem (List.not_mem_nil it)

theorem lunchItems_cases (db : DB) (now : Int) (q : PracticeR) :
    ∀ it ∈ lunchItems db now q,
      it.itype = "Upcoming Lunch" ∧ it.practice_id = q.id ∧
        it.priority = "medium" ∧ it.days_overdue < 0 := by
  intro it hit
  unfold lunchItems at hit
  obtain ⟨l, -, hmem⟩ := List.mem_flatMap.mp hit
  split at hmem
  · rename_i d hd
    split at hmem
    · rename_i hneg
      rcases List.mem_singleton.mp hmem with rfl
      exact ⟨rfl, rfl, rfl, hneg⟩
    · exact absurd hmem (List.not_mem_nil it)
  · exact absurd hmem (List.not_mem_nil it)

theorem lunchItems_countP (db : DB) (now : Int) (q : PracticeR) (pid : Nat)
    (hq : q.id = pid) :
    ((lunchItems db now q).countP
        fun it => it.itype == "Upcoming Lunch" && it.practice_id == pid) =
      db.lunches.countP (upcomingLunchCond now pid) := by
  unfold lunchItems
  rw [countP_flatMap_eq _ _ _
    (fun l => match l.scheduled_date with
      | some d => decide (now - d < 0)
      | none => false) ?_]
  · unfold get_lunches
    rw [sortB_countP, List.countP_filter]
    apply List.countP_congr
    intro l hl
    unfold upcomingLunchCond
    subst hq
    cases hsd : l.scheduled_date <;> simp [hsd, Bool.and_comm]
  · intro l hl
    cases hsd : l.scheduled_date with
    | some d =>
      by_cases hneg : now - d < 0
      · simp [hsd, hq, hneg]
      · simp [hsd, hneg]
    | none => simp [hsd]

theorem perPractice_upcoming (db : DB) (now lf : Int) (q : PracticeR) (pid : Nat) :
    ((followupItems db now lf q ++ tyItems db now q ++ lunchItems db now q).countP
        fun it => it.itype == "Upcoming Lunch" && it.practice_id == pid) =
      if q.id == pid then db.lunches.countP (upcomingLunchCond now pid) else 0 := by
  rw [List.countP_append, List.countP_append]
  have h1 : ((followupItems db now lf q).countP
      fun it => it.itype == "Upcoming Lunch" && it.practice_id == pid) = 0 := by
    rw [List.countP_eq_zero]
    intro it hit
    rcases followupItems_cases db now lf q it hit with ⟨h, -, -, -⟩ | ⟨h, -⟩ <;> simp [h]
  have h2 : ((tyItems db now q).countP
      fun it => it.itype == "Upcoming Lunch" && it.practice_id == pid) = 0 := by
    rw [List.countP_eq_zero]
    intro it hit
    obtain ⟨h, -⟩ := tyItems_cases db now q it hit
    simp [h]
  by_cases hqp : q.id = pid
  · rw [h1, h2, lunchItems_countP db now q pid hqp, if_pos (by simp [hqp])]
    omega
  · have h3 : ((lunchItems db now q).countP
        fun it => it.itype == "Upcoming Lunch" && it.practice_id == pid) = 0 := by
      rw [List.countP_eq_zero]
      intro it hit
      obtain ⟨-, hp, -, -⟩ := lunchItems_cases db now q it hit
      simp [hp, hqp]
    rw [h1, h2, h3, if_neg (by simp [hqp])]

theorem perPractice_nocontact (db : DB) (now lf : Int) (q : PracticeR) (pid : Nat)
    (hnoc : ∀ c ∈ db.contact_log, (c.practice_id == pid) = false) :
    ((followupItems db now lf q ++ tyItems db now q ++ lunchItems db now q).countP
        fun it => it.itype == "No Contact" && it.practice_id == pid) =
      if q.id == pid then 1 else 0 := by
  rw [List.countP_append, List.countP_append]
  have h2 : ((tyItems db now q).countP
      fun it => it.itype == "No Contact" && it.practice_id == pid) = 0 := by
    rw [List.countP_eq_zero]
    intro it hit
    obtain ⟨h, -⟩ := tyItems_cases db now q it hit
    simp [h]
  have h3 : ((lunchItems db now q).countP
      fun it => it.itype == "No Contact" && it.practice_id == pid) = 0 := by
    rw [List.countP_eq_zero]
    intro it hit
    obtain ⟨h, -, -, -⟩ := lunchItems_cases db now q it hit
    simp [h]
  by_cases hqp : q.id = pid
  · have hempty : get_contact_log db q.id 1 = [] := by
      unfold get_contact_log
      have : db.contact_log.filter (fun c => c.practice_id == q.id) = [] := by
        rw [List.filter_eq_nil_iff]
        intro c hc
        rw [hqp]
        simp [hnoc c hc]
      rw [this]
      rfl
    have h1 : ((followupItems db now lf q).countP
        fun it => it.itype == "No Contact" && it.practice_id == pid) = 1 := by
      unfold followupItems
      rw [hempty]
      simp [hqp]
    rw [h1, h2, h3, if_pos (by simp [hqp])]
  · have h1 : ((followupItems db now lf q).countP
        fun it => it.itype == "No Contact" && it.practice_id == pid) = 0 := by
      rw [List.countP_eq_zero]
      intro it hit
      rcases followupItems_cases db now lf q it hit with ⟨-, -, -, hp⟩ | ⟨-, hp⟩ <;>
        simp [hp, hqp]
    rw [h1, h2, h3, if_neg (by simp [hqp])]

/-- C3, corrected claim: for every Active practice, the deriver emits one
`Upcoming Lunch` item (priority medium) for each of its Scheduled lunches
whose scheduled date has a strictly *negative* days-since — i.e. a date in
the *future* — and for no other lunches; past-dated Scheduled lunches yield
no item. -/
theorem c3_upcoming_lunch_amended (db : DB) (now lf : Int) (pid : Nat)
    (huniq : db.practices.countP (fun q => q.id == pid && q.status == "Active") = 1) :
    ((get_overdue_items db now lf).countP
        fun it => it.itype == "Upcoming Lunch" && it.practice_id == pid) =
      db.lunches.countP (upcomingLunchCond now pid) ∧
    ∀ it ∈ get_overdue_items db now lf, it.itype = "Upcoming Lunch" →
      it.priority = "medium" ∧ it.days_overdue < 0 := by
  constructor
  · unfold get_overdue_items
    rw [sortB_countP, countP_flatMap]
    rw [List.map_congr_left fun q _ => perPractice_upcoming db now lf q pid]
    rw [sum_map_ite_const]
    have hone : ((get_all_practices db "Active").countP fun q => q.id == pid) = 1 := by
      unfold get_all_practices
      rw [sortB_countP, List.countP_filter]
      exact huniq
    rw [hone, Nat.mul_one]
  · intro it hit hUL
    rw [get_overdue_items] at hit
    have hit' := (sortB_mem _ it _).mp hit
    obtain ⟨q, -, hmem⟩ := List.mem_flatMap.mp hit'
    rcases List.mem_append.mp hmem with h12 | h3
    · rcases List.mem_append.mp h12 with hf | ht
      · rcases followupItems_cases db now lf q it hf with ⟨h, -, -, -⟩ | ⟨h, -⟩ <;>
          exact absurd (h.symm.trans hUL) (by decide)
      · obtain ⟨h, -⟩ := tyItems_cases db now q it ht
        exact absurd (h.symm.trans hUL) (by decide)
    · obtain ⟨-, -, hpr, hdo⟩ := lunchItems_cases db now q it h3
      exact ⟨hpr, hdo⟩

/-- Witness for C3's amended claim on a database with one future Scheduled
lunch. -/
theorem c3_upcoming_lunch_witness :
    ((get_overdue_items dbFutureLunch 100 90).countP
        fun it => it.itype == "Upcoming Lunch" && it.practice_id == 1) =
      dbFutureLunch.lunches.countP (upcomingLunchCond 100 1) :=
  (c3_upcoming_lunch_amended dbFutureLunch 100 90 1 (by decide)).1

/-- C3 counterexample: an Active practice's Scheduled lunch dated in the
past (positive days-since) produces no `Upcoming Lunch` item, though the
claim requires one. -/
theorem c3_upcoming_lunch_counterexample :
    dbPastLunch.practices = [⟨1, "ABC Clinic", "Active"⟩] ∧
    dbPastLunch.lunches = [⟨1, 1, "Scheduled", some 99, "noon", none⟩] ∧
    days_since 100 (some 99) = some 1 ∧
    ((get_overdue_items dbPastLunch 100 90).countP
      fun it => it.itype == "Upcoming Lunch") = 0 := by
  refine ⟨rfl, rfl, rfl, by decide⟩

/-- C8, corrected claim: for every Active practice with zero contact-log
entries, the overdue list contains exactly one item *of type `No Contact`*
for that practice, with priority `high` and `days_overdue` 0; items of
other types (pending thank-yous, upcoming lunches) may additionally be
present for the same practice. -/
theorem c8_no_contact_amended (db : DB) (now lf : Int) (pid : Nat)
    (huniq : db.practices.countP (fun q => q.id == pid && q.status == "Active") = 1)
    (hnoc : ∀ c ∈ db.contact_log, (c.practice_id == pid) = false) :
    ((get_overdue_items db now lf).countP
        fun it => it.itype == "No Contact" && it.practice_id == pid) = 1 ∧
    ∀ it ∈ get_overdue_items db now lf, it.itype = "No Contact" →
      it.priority = "high" ∧ it.days_overdue = 0 := by
  constructor
  · unfold get_overdue_items
    rw [sortB_countP, countP_flatMap]
    rw [List.map_congr_left fun q _ => perPractice_nocontact db now lf q pid hnoc]
    rw [sum_map_ite_const]
    have hone : ((get_all_practices db "Active").countP fun q => q.id == pid) = 1 := by
      unfold get_all_practices
      rw [sortB_countP, List.countP_filter]
      exact huniq
    rw [hone, Nat.mul_one]
  · intro it hit hNC
    rw [get_overdue_items] at hit
    have hit' := (sortB_mem _ it _).mp hit
    obtain ⟨q, -, hmem⟩ := List.mem_flatMap.mp hit'
    rcases List.mem_append.mp hmem with h12 | h3
    · rcases List.mem_append.mp h12 with hf | ht
      · rcases followupItems_cases db now lf q it hf with ⟨-, hp, hd, -⟩ | ⟨h, -⟩
        · exact ⟨hp, hd⟩
        · exact absurd (h.symm.trans hNC) (by decide)
      · obtain ⟨h, -⟩ := tyItems_cases db now q it ht
        exact absurd (h.symm.trans hNC) (by decide)
    · obtain ⟨h, -, -, -⟩ := lunchItems_cases db now q it h3
      exact absurd (h.symm.trans hNC) (by decide)

/-- Witness for C8's amended claim on a contactless database. -/
theorem c8_no_contact_witness :
    ((get_overdue_items dbNoContact 100 90).countP
        fun it => it.itype == "No Contact" && it.practice_id == 1) = 1 :=
  (c8_no_contact_amended dbNoContact 100 90 1 (by decide) (by decide)).1

/-- C8 counterexample: a practice with zero contact-log entries and an old
pending thank-you letter gets two overdue items, not exactly one. -/
theorem c8_no_contact_counterexample :
    dbNoContactTY.contact_log = [] ∧
    dbNoContactTY.practices = [⟨1, "ABC Clinic", "Active"⟩] ∧
    ((get_overdue_items dbNoContactTY 100 90).countP
      fun it => it.practice_id == 1) = 2 := by
  refine ⟨rfl, rfl, by decide⟩

/-! ## C5 and C10: the contact-info parsers -/

theorem mtch_cat_ne (a b : RE) (cs : List Char) (h : mtch (RE.catR a b) cs ≠ []) :
    mtch a cs ≠ [] := by
  intro hnil
  apply h
  simp [mtch, hnil]

theorem mtch_cset_ne (p : Char → Bool) (cs : List Char)
    (h : mtch (RE.cset p) cs ≠ []) :
    ∃ c cs', cs = c :: cs' ∧ p c = true := by
  cases cs with
  | nil => simp [mtch] at h
  | cons c cs' =>
    by_cases hp : p c = true
    · exact ⟨c, cs', rfl, hp⟩
    · simp [mtch, hp] at h

theorem mtch_catR_cset_ne (p : Char → Bool) (r : RE) (cs : List Char)
    (h : mtch (RE.catR (RE.cset p) r) cs ≠ []) :
    ∃ c cs', cs = c :: cs' ∧ p c = true ∧ mtch r cs' ≠ [] := by
  obtain ⟨c, cs', rfl, hp⟩ := mtch_cset_ne p cs (mtch_cat_ne _ _ _ h)
  refine ⟨c, cs', rfl, hp, ?_⟩
  intro hnil
  apply h
  simp [mtch, hp, hnil]

theorem mtch_faxLabel_shape (r : RE) (cs : List Char)
    (h : mtch (RE.catR faxLabelRE r) cs ≠ []) :
    ∃ c1 c2 c3 rest, cs = c1 :: c2 :: c3 :: rest ∧
      c1.toLower = 'f' ∧ c2.toLower = 'a' ∧ c3.toLower = 'x' := by
  have h1 : mtch faxLabelRE cs ≠ [] := mtch_cat_ne _ _ _ h
  unfold faxLabelRE ciCh at h1
  obtain ⟨c1, cs1, rfl, hp1, h2⟩ := mtch_catR_cset_ne _ _ _ h1
  obtain ⟨c2, cs2, rfl, hp2, h3⟩ := mtch_catR_cset_ne _ _ _ h2
  obtain ⟨c3, cs3, rfl, hp3⟩ := mtch_cset_ne _ _ h3
  exact ⟨c1, c2, c3, cs3, rfl, by simpa using hp1, by simpa using hp2, by simpa using hp3⟩

theorem hasFax_of_shape (c1 c2 c3 : Char) (rest : List Char)
    (h1 : c1.toLower = 'f') (h2 : c2.toLower = 'a') (h3 : c3.toLower = 'x') :
    hasFax (c1 :: c2 :: c3 :: rest) = true := by
  unfold hasFax
  simp only [List.map_cons, h1, h2, h3]
  simp [hasFaxL, startsFax]

theorem hasFax_cons_of (c : Char) (cs : List Char) (h : hasFax cs = true) :
    hasFax (c :: cs) = true := by
  unfold hasFax at *
  simp [hasFaxL, h]

theorem searchRE_fax_label (r : RE) : ∀ (cs : List Char) (g : List (List Char)),
    searchRE (RE.catR faxLabelRE r) cs = some g → hasFax cs = true := by
  intro cs
  induction cs with
  | nil =>
    intro g h
    unfold searchRE at h
    have hne : mtch (RE.catR faxLabelRE r) [] ≠ [] := by
      intro hnil
      rw [hnil] at h
      simp at h
    obtain ⟨c1, c2, c3, rest, heq, -⟩ := mtch_faxLabel_shape r [] hne
    exact absurd heq (by simp)
  | cons c cs' ih =>
    intro g h
    unfold searchRE at h
    cases hm : (mtch (RE.catR faxLabelRE r) (c :: cs')).head? with
    | some gr =>
      have hne : mtch (RE.catR faxLabelRE r) (c :: cs') ≠ [] := by
        intro hnil
        rw [hnil] at hm
        simp at hm
      obtain ⟨c1, c2, c3, rest, heq, h1, h2, h3⟩ := mtch_faxLabel_shape r _ hne
      rw [heq]
      exact hasFax_of_shape c1 c2 c3 rest h1 h2 h3
    | none =>
      rw [hm] at h
      exact hasFax_cons_of c cs' (ih g h)

theorem parse_fax_requires_label (t : String) (h : hasFax t.data = false) :
    parse_fax_number t = "" := by
  unfold parse_fax_number
  split
  · rfl
  · have hs1 : searchRE faxPat1 t.data = none := by
      cases hs : searchRE faxPat1 t.data with
      | none => rfl
      | some g =>
        have hfx : hasFax t.data = true := by
          refine searchRE_fax_label faxTail1 t.data g ?_
          rw [← hs]
          rfl
        rw [h] at hfx
        exact absurd hfx (by decide)
    have hs2 : searchRE faxPat2 t.data = none := by
      cases hs : searchRE faxPat2 t.data with
      | none => rfl
      | some g =>
        have hfx : hasFax t.data = true := by
          refine searchRE_fax_label faxTail2 t.data g ?_
          rw [← hs]
          rfl
        rw [h] at hfx
        exact absurd hfx (by decide)
    unfold tryPatterns
    rw [hs1]
    unfold tryPatterns
    rw [hs2]
    rfl

/-- C10: when every line of the contact text contains `"fax"`
(case-insensitive), the fax-line filter leaves nothing, so `parse_phone`
matches the original unfiltered text and can return a fax-labeled number;
in particular it returns `"936-555-1212"` on `"Fax: 936-555-1212"`. -/
theorem c10_fax_line_fallback :
    (∀ t : String, t ≠ "" → (∀ l ∈ splitNL t.data, hasFax l = true) →
      parse_phone_number t = tryPatterns [phonePat1, phonePat2, phonePat3] t.data) ∧
    parse_phone_number "Fax: 936-555-1212" = "936-555-1212" := by
  constructor
  · intro t ht hall
    have hfil : (splitNL t.data).filter (fun l => !hasFax l) = [] := by
      rw [List.filter_eq_nil_iff]
      intro l hl
      simp [hall l hl]
    simp only [parse_phone_number]
    rw [if_neg ht, hfil]
    rw [if_neg (by simp)]
  · decide

/-- Witness for C10 at its own concrete example. -/
theorem c10_fax_line_fallback_witness :
    parse_phone_number "Fax: 936-555-1212" =
      tryPatterns [phonePat1, phonePat2, phonePat3] "Fax: 936-555-1212".data :=
  c10_fax_line_fallback.1 "Fax: 936-555-1212" (by decide) (by decide)

/-- C5, corrected claim: when at least one line of the text lacks `"fax"`
(case-insensitive), `parse_phone` matches only against the surviving
non-fax lines — so it cannot return a number from a fax line; `parse_fax`
returns a number only when an explicit fax label is present; and on
`"Fax: 936-555-1212\nPhone: 936-555-3434"` the two parsers return
`"936-555-1212"` and `"936-555-3434"` respectively. (When *every* line
contains `"fax"`, the filter is discarded and a fax-line number can be
returned as the phone number.) -/
theorem c5_disambiguation_amended :
    (∀ t : String, t ≠ "" → (splitNL t.data).filter (fun l => !hasFax l) ≠ [] →
      parse_phone_number t =
        tryPatterns [phonePat1, phonePat2, phonePat3]
          (joinNL ((splitNL t.data).filter fun l => !hasFax l))) ∧
    (∀ t : String, hasFax t.data = false → parse_fax_number t = "") ∧
    parse_fax_number "Fax: 936-555-1212\nPhone: 936-555-3434" = "936-555-1212" ∧
    parse_phone_number "Fax: 936-555-1212\nPhone: 936-555-3434" = "936-555-3434" := by
  refine ⟨?_, parse_fax_requires_label, by decide, by decide⟩
  intro t ht hfil
  simp only [parse_phone_number]
  rw [if_neg ht, if_pos hfil]

/-- Witness for C5's amended claim at the spec's two-line example. -/
theorem c5_disambiguation_witness :
    parse_phone_number "Fax: 936-555-1212\nPhone: 936-555-3434" =
      tryPatterns [phonePat1, phonePat2, phonePat3]
        (joinNL ((splitNL "Fax: 936-555-1212\nPhone: 936-555-3434".data).filter
          fun l => !hasFax l)) :=
  c5_disambiguation_amended.1 "Fax: 936-555-1212\nPhone: 936-555-3434"
    (by decide) (by decide)

/-- C5 counterexample: with the fax number and an unlabeled number on the
same (single) line, every line contains `"fax"`, the filter is discarded,
and `parse_phone` returns the fax-labeled number. -/
theorem c5_disambiguation_counterexample :
    parse_phone_number "Fax: 936-555-1212, 936-555-3434" = "936-555-1212" ∧
    parse_fax_number "Fax: 936-555-1212, 936-555-3434" = "936-555-1212" ∧
    hasFax "Fax: 936-555-1212, 936-555-3434".data = true := by
  refine ⟨by decide, by decide, by decide⟩
